import Mathlib

/-!
Shallow embedding of `src/src-tauri/src/main.rs` of the luWidget repository:
a Tauri tray application with an auto-launch toggle, a transient
notification window, and a tray-click show/hide handler for the main
window.

OS-level effects (the auto-launch registry, window construction, window
close, the visibility query) are modelled by explicit state values plus
failure-injection flags, so that every code path of the Rust source —
including its error branches — is a reachable branch of the Lean
definitions.
-/

namespace LuWidget

/-- The operating system's auto-launch registration state, as seen through
the `auto_launch` crate: the boolean "is registered" flag plus
failure-injection flags for the three OS calls (`is_enabled`, `enable`,
`disable`). -/
structure AutoStartOS where
  enabled : Bool
  queryFails : Bool
  enableFails : Bool
  disableFails : Bool
deriving DecidableEq

/-- `auto_launch.is_enabled()`: queries the OS flag, may fail. -/
def isEnabledCall (os : AutoStartOS) : Except String Bool :=
  if os.queryFails then Except.error "query failed" else Except.ok os.enabled

/-- `auto_launch.enable()`: registers the app for login start; on failure
the OS state is unchanged. -/
def enableCall (os : AutoStartOS) : AutoStartOS × Except String Unit :=
  if os.enableFails then (os, Except.error "enable failed")
  else ({ os with enabled := true }, Except.ok ())

/-- `auto_launch.disable()`: unregisters the app; on failure the OS state
is unchanged. -/
def disableCall (os : AutoStartOS) : AutoStartOS × Except String Unit :=
  if os.disableFails then (os, Except.error "disable failed")
  else ({ os with enabled := false }, Except.ok ())

/-- `is_enabled().unwrap_or(false)` — main.rs line 24: a failed query is
treated as "not enabled". -/
def isEnabledUnwrapOrFalse (os : AutoStartOS) : Bool :=
  match isEnabledCall os with
  | Except.ok b => b
  | Except.error _ => false

/-- The `toggle_auto_launch` Tauri command (main.rs lines 18-35).
The registrar handle stored in `AutoLaunchState` is `Option`-valued:
`none` when platform setup failed.  Returns the command's
`Result<bool, String>` together with the OS state after the call. -/
def toggle_auto_launch (registrar : Option Unit) (os : AutoStartOS) :
    Except String Bool × AutoStartOS :=
  match registrar with
  | some _ =>
    let is_enabled := isEnabledUnwrapOrFalse os
    if is_enabled then
      match disableCall os with
      | (os', Except.ok _) => (Except.ok false, os')
      | (os', Except.error e) => (Except.error e, os')
    else
      match enableCall os with
      | (os', Except.ok _) => (Except.ok true, os')
      | (os', Except.error e) => (Except.error e, os')
  | none => (Except.error "AutoLaunch not initialized", os)

/-- The startup query (main.rs lines 93-95):
`auto_launch.as_ref().and_then(|al| al.is_enabled().ok()).unwrap_or(false)`,
used to initialize the tray checkbox. -/
def startupIsEnabled (registrar : Option Unit) (os : AutoStartOS) : Bool :=
  match registrar with
  | none => false
  | some _ =>
    match isEnabledCall os with
    | Except.ok b => b
    | Except.error _ => false

/-- A live window as recorded in the Tauri window registry, with the
configuration fields set by `WebviewWindowBuilder` and the mutable
visibility/focus/payload state touched by the handlers. -/
structure Window where
  label : String
  url : String
  title : String
  width : Nat
  height : Nat
  decorations : Bool
  transparent : Bool
  alwaysOnTop : Bool
  resizable : Bool
  skipTaskbar : Bool
  centered : Bool
  visible : Bool
  focused : Bool
  payload : Option String
deriving DecidableEq

/-- The platform window registry: label-to-window mapping, modelled as a
list of live windows (the platform contract keeps at most one window per
label). -/
abbrev WindowRegistry := List Window

/-- `app.get_webview_window(label)`. -/
def get_webview_window (reg : WindowRegistry) (label : String) : Option Window :=
  reg.find? (fun w => w.label == label)

/-- Number of live windows carrying a given label. -/
def labelCount (reg : WindowRegistry) (label : String) : Nat :=
  (reg.filter (fun w => w.label == label)).length

/-- Failure-injection flags for the windowing layer: `window.close()`,
`WebviewWindowBuilder::build()`, and `window.is_visible()` can each fail. -/
structure WinEnv where
  closeFails : Bool
  buildFails : Bool
  visQueryFails : Bool
deriving DecidableEq

/-- `window.close()` on the window found under `label`: on failure the
window stays in the registry, on success it is removed. -/
def closeWindow (env : WinEnv) (reg : WindowRegistry) (label : String) :
    WindowRegistry × Except String Unit :=
  if env.closeFails then (reg, Except.error "close failed")
  else (reg.eraseP (fun w => w.label == label), Except.ok ())

/-- A hexadecimal digit character (lowercase). -/
def hexDigit (n : Nat) : Char :=
  if n < 10 then Char.ofNat (48 + n) else Char.ofNat (87 + n)

/-- JSON escaping of one character, as in the external `serde_json`
crate's string serializer. -/
def jsonEscapeChar (c : Char) : String :=
  if c = '"' then "\\\""
  else if c = '\\' then "\\\\"
  else if c = '\n' then "\\n"
  else if c = '\r' then "\\r"
  else if c = '\t' then "\\t"
  else if c.toNat < 32 then
    "\\u00" ++ String.mk [hexDigit (c.toNat / 16), hexDigit (c.toNat % 16)]
  else String.singleton c

/-- Model of `serde_json::to_string(&message)` for a string value
(main.rs line 62): the JSON-encoded string. -/
def jsonEncodeString (s : String) : String :=
  "\"" ++ String.join (s.toList.map jsonEscapeChar) ++ "\""

/-- The notification window as configured by the builder chain at
main.rs lines 45-58: 600×200, no decorations, transparent, always on
top, non-resizable, skipped in the taskbar, centered; no payload has
been delivered yet at construction time. -/
def builtNotificationWindow : Window :=
  { label := "notification", url := "notification.html", title := "Notification",
    width := 600, height := 200, decorations := false, transparent := true,
    alwaysOnTop := true, resizable := false, skipTaskbar := true,
    centered := true, visible := true, focused := false, payload := none }

/-- `WebviewWindowBuilder::build()`: fails when the injected flag says so
or when a window with the same label is still alive (the registry keeps
at most one window per label); on success the new window is appended. -/
def buildWindowCall (env : WinEnv) (reg : WindowRegistry) (w : Window) :
    Except String WindowRegistry :=
  if env.buildFails || (get_webview_window reg w.label).isSome then
    Except.error "window build failed"
  else Except.ok (reg ++ [w])

/-- Apply an update to every window carrying the given label (the update
functions used here never change the label). -/
def mapLabel (reg : WindowRegistry) (label : String) (f : Window → Window) :
    WindowRegistry :=
  reg.map (fun w => if w.label == label then f w else w)

/-- `window.eval("window.__NOTIFICATION_MESSAGE__ = <json>")` on the
notification window: stores the JSON payload in the window's runtime
context (the call's `Result` is discarded at main.rs line 62). -/
def evalOnLabel (reg : WindowRegistry) (label : String) (json : String) :
    WindowRegistry :=
  mapLabel reg label (fun w => { w with payload := some json })

/-- Observable sub-steps of `show_notification`, in execution order. -/
inductive NotifAction
  | closeOld
  | buildNew
  | evalMessage
deriving DecidableEq

/-- The `show_notification` Tauri command (main.rs lines 37-65): close
any existing notification window (result ignored), build the new one
(`?` propagates a build error), then deliver the JSON-encoded message.
Returns the command result, the registry afterwards, and the trace of
attempted sub-steps. -/
def show_notification (env : WinEnv) (message : String) (reg : WindowRegistry) :
    Except String Unit × WindowRegistry × List NotifAction :=
  let closed :=
    match get_webview_window reg "notification" with
    | some _ => ((closeWindow env reg "notification").1, [NotifAction.closeOld])
    | none => (reg, ([] : List NotifAction))
  match buildWindowCall env closed.1 builtNotificationWindow with
  | Except.error e => (Except.error e, closed.1, closed.2 ++ [NotifAction.buildNew])
  | Except.ok reg2 =>
    (Except.ok (), evalOnLabel reg2 "notification" (jsonEncodeString message),
      closed.2 ++ [NotifAction.buildNew, NotifAction.evalMessage])

/-- The `close_notification` Tauri command (main.rs lines 67-72): close
the notification window if present (result discarded), no-op otherwise.
Its return type carries no error component, mirroring the Rust `fn`
returning `()`. -/
def close_notification (env : WinEnv) (reg : WindowRegistry) : WindowRegistry :=
  match get_webview_window reg "notification" with
  | some _ => (closeWindow env reg "notification").1
  | none => reg

/-- Tray mouse buttons (`tauri::tray::MouseButton`). -/
inductive TrayMouseButton
  | left
  | right
  | middle
deriving DecidableEq

/-- Tray mouse button states (`tauri::tray::MouseButtonState`). -/
inductive TrayMouseButtonState
  | up
  | down
deriving DecidableEq

/-- Tray icon events: a click with its button and button state, or any
of the other event kinds (double click, enter, move, leave), which the
handler ignores. -/
inductive TrayIconEvent
  | click (button : TrayMouseButton) (buttonState : TrayMouseButtonState)
  | other
deriving DecidableEq

/-- Operations the tray-click handler may invoke on the main window. -/
inductive MainWinAction
  | hideMain
  | showMain
  | focusMain
deriving DecidableEq

/-- The one tray event the handler acts on: left button released over
the icon (`TrayIconEvent::Click { button: Left, button_state: Up, .. }`). -/
def leftUpRelease : TrayIconEvent :=
  TrayIconEvent.click TrayMouseButton.left TrayMouseButtonState.up

/-- `window.is_visible()`: may fail; otherwise reports the flag. -/
def isVisibleCall (env : WinEnv) (w : Window) : Except String Bool :=
  if env.visQueryFails then Except.error "visibility query failed"
  else Except.ok w.visible

/-- The tray-icon event handler (main.rs lines 132-153).  Only a left
button release acts: if the main window exists, an `Ok(true)` visibility
query hides it, any other query outcome (not visible, or query error)
shows and focuses it; with no main window nothing happens.  Returns the
registry afterwards and the list of invoked window operations (whose
individual results the code discards). -/
def on_tray_icon_event (env : WinEnv) (event : TrayIconEvent)
    (reg : WindowRegistry) : WindowRegistry × List MainWinAction :=
  match event with
  | TrayIconEvent.click TrayMouseButton.left TrayMouseButtonState.up =>
    match get_webview_window reg "main" with
    | some window =>
      match isVisibleCall env window with
      | Except.ok true =>
        (mapLabel reg "main" (fun w => { w with visible := false }),
          [MainWinAction.hideMain])
      | _ =>
        (mapLabel reg "main" (fun w => { w with visible := true, focused := true }),
          [MainWinAction.showMain, MainWinAction.focusMain])
    | none => (reg, [])
  | _ => (reg, [])

/-- The application state visible to the menu-event handler: the
registrar handle, the OS autostart state, the `toggle_autostart`
checkbox, and the process exit code (set by `app.exit(0)`). -/
structure MenuState where
  registrar : Option Unit
  os : AutoStartOS
  checked : Bool
  exitCode : Option Nat
deriving DecidableEq

/-- The menu-event handler (main.rs lines 114-131), dispatching on the
item identifier: `toggle_autostart` invokes `toggle_auto_launch` and on
`Ok(new_state)` sets the checkbox to it (`set_checked` result
discarded), on error leaves the checkbox alone; `quit` exits with code
0; unknown identifiers do nothing. -/
def on_menu_event (id : String) (st : MenuState) : MenuState :=
  if id = "toggle_autostart" then
    match toggle_auto_launch st.registrar st.os with
    | (Except.ok new_state, os') => { st with os := os', checked := new_state }
    | (Except.error _, os') => { st with os := os' }
  else if id = "quit" then { st with exitCode := some 0 }
  else st

/-- Identifiers for two concurrent invocations of `toggle_auto_launch`. -/
inductive ThreadId
  | t0
  | t1
deriving DecidableEq

/-- Where one invocation of `toggle_auto_launch` stands: not yet started;
holding the registrar mutex having observed `before` from the
`is_enabled` read; or finished with its observed before-state and its
returned result. -/
inductive ThreadPhase
  | start
  | locked (before : Bool)
  | done (before : Bool) (result : Except String Bool)

/-- Two in-flight `toggle_auto_launch` invocations sharing the OS state
and the `AutoLaunchState` mutex (main.rs line 11). -/
structure ConcState where
  os : AutoStartOS
  lock : Option ThreadId
  thr0 : ThreadPhase
  thr1 : ThreadPhase

/-- The body of `toggle_auto_launch` after the `is_enabled` read
(main.rs lines 25-31): flip according to the observed state. -/
def flipFrom (before : Bool) (os : AutoStartOS) :
    Except String Bool × AutoStartOS :=
  if before then
    match disableCall os with
    | (os', Except.ok _) => (Except.ok false, os')
    | (os', Except.error e) => (Except.error e, os')
  else
    match enableCall os with
    | (os', Except.ok _) => (Except.ok true, os')
    | (os', Except.error e) => (Except.error e, os')

/-- Interleaving steps of the two invocations: `acquire i` — thread `i`
takes the mutex (main.rs line 21) and performs the `is_enabled` read
(line 24); `commit i` — thread `i` performs the flip (lines 25-31),
records its result, and releases the mutex at end of scope. -/
inductive ConcStep
  | acquire (i : ThreadId)
  | commit (i : ThreadId)

/-- One interleaving step; `none` when the step is not enabled (the
mutex is held elsewhere, or the thread is not in the right phase). -/
def concStep (s : ConcState) : ConcStep → Option ConcState
  | ConcStep.acquire ThreadId.t0 =>
    match s.lock, s.thr0 with
    | none, ThreadPhase.start =>
      some { s with lock := some ThreadId.t0,
                    thr0 := ThreadPhase.locked (isEnabledUnwrapOrFalse s.os) }
    | _, _ => none
  | ConcStep.acquire ThreadId.t1 =>
    match s.lock, s.thr1 with
    | none, ThreadPhase.start =>
      some { s with lock := some ThreadId.t1,
                    thr1 := ThreadPhase.locked (isEnabledUnwrapOrFalse s.os) }
    | _, _ => none
  | ConcStep.commit ThreadId.t0 =>
    match s.lock, s.thr0 with
    | some ThreadId.t0, ThreadPhase.locked b =>
      some { s with os := (flipFrom b s.os).2, lock := none,
                    thr0 := ThreadPhase.done b (flipFrom b s.os).1 }
    | _, _ => none
  | ConcStep.commit ThreadId.t1 =>
    match s.lock, s.thr1 with
    | some ThreadId.t1, ThreadPhase.locked b =>
      some { s with os := (flipFrom b s.os).2, lock := none,
                    thr1 := ThreadPhase.done b (flipFrom b s.os).1 }
    | _, _ => none

/-- Run a schedule of interleaving steps; `none` if any step misfires. -/
def concExec (s : ConcState) : List ConcStep → Option ConcState
  | [] => some s
  | a :: t =>
    match concStep s a with
    | some s₁ => concExec s₁ t
    | none => none

/-- Both invocations pending, mutex free. -/
def initConc (os : AutoStartOS) : ConcState :=
  { os := os, lock := none, thr0 := ThreadPhase.start, thr1 := ThreadPhase.start }

/-- The before-state of a finished, successful invocation (if that is
what the phase is). -/
def doneOkBefore : ThreadPhase → Option Bool
  | ThreadPhase.done b (Except.ok _) => some b
  | _ => none

/-- Per-thread inductive invariant: a lock-holding thread observed the
current OS flag; a successfully finished thread returned the negation of
its observed before-state, and either the other thread also finished
successfully with a different before-state, or the OS flag still records
this thread's flip. -/
def threadInv (os : AutoStartOS) (self other : ThreadPhase) : Prop :=
  match self with
  | ThreadPhase.start => True
  | ThreadPhase.locked b => b = os.enabled
  | ThreadPhase.done b result =>
    match result with
    | Except.error _ => True
    | Except.ok r =>
      r = !b ∧
      match doneOkBefore other with
      | some b₂ => b₂ ≠ b
      | none => os.enabled = !b

/-- The mutex invariant: the lock owner is exactly the thread in the
`locked` phase. -/
def lockInv (s : ConcState) : Prop :=
  match s.lock with
  | some ThreadId.t0 =>
    (∃ b, s.thr0 = ThreadPhase.locked b) ∧ ∀ b, s.thr1 ≠ ThreadPhase.locked b
  | some ThreadId.t1 =>
    (∃ b, s.thr1 = ThreadPhase.locked b) ∧ ∀ b, s.thr0 ≠ ThreadPhase.locked b
  | none =>
    (∀ b, s.thr0 ≠ ThreadPhase.locked b) ∧ ∀ b, s.thr1 ≠ ThreadPhase.locked b

/-- The full inductive invariant of the two-toggle interleaving system
(under a non-failing `is_enabled` query). -/
def ConcInv (s : ConcState) : Prop :=
  s.os.queryFails = false ∧ lockInv s ∧
  threadInv s.os s.thr0 s.thr1 ∧ threadInv s.os s.thr1 s.thr0

end LuWidget

namespace LuWidget

/-- C1: For every initialized registrar state (no injected OS failures),
`toggle_auto_launch` reads the current enabled state, flips it, and
returns `Ok` of the new boolean state; from `enabled = false` it returns
`true`, and a second call returns `false` and restores the original
state, so toggle is its own inverse after two calls. -/
theorem toggle_auto_launch_flips_and_is_involutive (os : AutoStartOS)
    (hq : os.queryFails = false) (he : os.enableFails = false)
    (hd : os.disableFails = false) :
    toggle_auto_launch (some ()) os =
      (Except.ok (!os.enabled), { os with enabled := !os.enabled }) ∧
    (os.enabled = false →
      toggle_auto_launch (some ()) os =
        (Except.ok true, { os with enabled := true }) ∧
      toggle_auto_launch (some ()) { os with enabled := true } =
        (Except.ok false, os)) := by
  obtain ⟨e, q, en, d⟩ := os
  simp only at hq he hd
  subst hq he hd
  cases e <;>
    simp [toggle_auto_launch, isEnabledUnwrapOrFalse, isEnabledCall,
      enableCall, disableCall]

/-- Witness for C1 at the concrete state `enabled = false`, no failures. -/
theorem toggle_auto_launch_flips_witness :
    toggle_auto_launch (some ()) ⟨false, false, false, false⟩ =
      (Except.ok true, ⟨true, false, false, false⟩) :=
  ((toggle_auto_launch_flips_and_is_involutive
      ⟨false, false, false, false⟩ rfl rfl rfl).2 rfl).1

/-- C4: When the registrar is absent, `toggle_auto_launch` returns the
distinct error string `"AutoLaunch not initialized"` and the OS autostart
state is unchanged. -/
theorem toggle_auto_launch_uninitialized (os : AutoStartOS) :
    toggle_auto_launch none os =
      (Except.error "AutoLaunch not initialized", os) := by
  simp [toggle_auto_launch]

/-- C7: Every autostart enabled-state query that errors is treated as
`false` rather than propagating: the query inside `toggle_auto_launch`
(line 24) observes `false`, so with a working `enable` call the toggle
takes the enable branch and returns `Ok true` regardless of the actual
OS flag; and the startup query (lines 93-95) also yields `false`. -/
theorem query_error_defaults_to_false (os : AutoStartOS) (r : Option Unit)
    (hq : os.queryFails = true) :
    isEnabledUnwrapOrFalse os = false ∧
    startupIsEnabled r os = false ∧
    (os.enableFails = false →
      toggle_auto_launch (some ()) os =
        (Except.ok true, { os with enabled := true })) := by
  obtain ⟨e, q, en, d⟩ := os
  simp only at hq
  subst hq
  refine ⟨by simp [isEnabledUnwrapOrFalse, isEnabledCall], ?_, ?_⟩
  · cases r <;> simp [startupIsEnabled, isEnabledCall]
  · intro hen
    simp only at hen
    subst hen
    simp [toggle_auto_launch, isEnabledUnwrapOrFalse, isEnabledCall,
      enableCall]

/-- Witness for C7: failing query over an OS state that is actually
enabled still reports not-enabled and re-enables. -/
theorem query_error_defaults_to_false_witness :
    isEnabledUnwrapOrFalse ⟨true, true, false, false⟩ = false ∧
    startupIsEnabled (some ()) ⟨true, true, false, false⟩ = false ∧
    (AutoStartOS.enableFails ⟨true, true, false, false⟩ = false →
      toggle_auto_launch (some ()) ⟨true, true, false, false⟩ =
        (Except.ok true, ⟨true, true, false, false⟩)) :=
  query_error_defaults_to_false ⟨true, true, false, false⟩ (some ()) rfl

theorem get_webview_window_eq_none_iff (reg : WindowRegistry) (l : String) :
    get_webview_window reg l = none ↔ labelCount reg l = 0 := by
  simp [get_webview_window, labelCount, List.find?_eq_none,
    List.length_eq_zero, List.filter_eq_nil_iff]

theorem labelCount_pos_of_get {reg : WindowRegistry} {l : String} {w : Window}
    (h : get_webview_window reg l = some w) : 1 ≤ labelCount reg l := by
  by_contra hk
  have h0 : labelCount reg l = 0 := by omega
  rw [(get_webview_window_eq_none_iff reg l).2 h0] at h
  exact Option.noConfusion h

theorem labelCount_eraseP (reg : WindowRegistry) (l : String) :
    labelCount (reg.eraseP (fun w => w.label == l)) l = labelCount reg l - 1 := by
  induction reg with
  | nil => simp [labelCount]
  | cons w ws ih =>
    by_cases h : (w.label == l) = true
    · simp [labelCount, List.eraseP_cons, h, List.filter_cons]
    · simp only [labelCount, List.eraseP_cons, h, List.filter_cons,
        cond_false, if_neg, Bool.false_eq_true, not_false_iff] at ih ⊢
      simpa [h] using ih

theorem labelCount_append (r₁ r₂ : WindowRegistry) (l : String) :
    labelCount (r₁ ++ r₂) l = labelCount r₁ l + labelCount r₂ l := by
  simp [labelCount, List.filter_append]

theorem get_webview_window_append {r₁ : WindowRegistry} {l : String}
    (r₂ : WindowRegistry) (h : get_webview_window r₁ l = none) :
    get_webview_window (r₁ ++ r₂) l = get_webview_window r₂ l := by
  induction r₁ with
  | nil => rfl
  | cons w ws ih =>
    cases hw : (w.label == l) <;>
      simp only [get_webview_window, List.cons_append, List.find?_cons, hw] at h ih ⊢
    · exact ih h
    · exact Option.noConfusion h

theorem labelCount_mapLabel (reg : WindowRegistry) (l l' : String)
    (f : Window → Window) (hf : ∀ w, (f w).label = w.label) :
    labelCount (mapLabel reg l f) l' = labelCount reg l' := by
  induction reg with
  | nil => rfl
  | cons w ws ih =>
    simp only [mapLabel, List.map_cons] at ih ⊢
    by_cases h : (w.label == l) = true <;>
      by_cases h' : (w.label == l') = true <;>
      simp [labelCount, List.filter_cons, h, h', hf] at ih ⊢ <;>
      simpa [labelCount] using ih

theorem get_webview_window_mapLabel (reg : WindowRegistry) (l : String)
    (f : Window → Window) (hf : ∀ w, (f w).label = w.label) :
    get_webview_window (mapLabel reg l f) l =
      (get_webview_window reg l).map f := by
  induction reg with
  | nil => rfl
  | cons w ws ih =>
    simp only [mapLabel, List.map_cons] at ih ⊢
    by_cases h : (w.label == l) = true <;>
      simp [get_webview_window, List.find?_cons, h, hf] at ih ⊢
    exact ih

theorem labelCount_evalOnLabel (reg : WindowRegistry) (l l' json : String) :
    labelCount (evalOnLabel reg l json) l' = labelCount reg l' := by
  simp only [evalOnLabel]
  rw [labelCount_mapLabel]
  intro w
  rfl

theorem get_evalOnLabel (reg : WindowRegistry) (l json : String) :
    get_webview_window (evalOnLabel reg l json) l =
      (get_webview_window reg l).map (fun w => { w with payload := some json }) := by
  simp only [evalOnLabel]
  rw [get_webview_window_mapLabel]
  intro w
  rfl

theorem get_built_singleton :
    get_webview_window [builtNotificationWindow] "notification" =
      some builtNotificationWindow := by
  simp [get_webview_window, List.find?, builtNotificationWindow]

theorem labelCount_built_singleton :
    labelCount [builtNotificationWindow] "notification" = 1 := by
  simp [labelCount, builtNotificationWindow]

theorem show_notification_eq_buildFail_noOld (env : WinEnv) (message : String)
    (reg : WindowRegistry) (hg : get_webview_window reg "notification" = none)
    (hbf : env.buildFails = true) :
    show_notification env message reg =
      (Except.error "window build failed", reg, [NotifAction.buildNew]) := by
  simp [show_notification, hg, buildWindowCall, hbf]

theorem show_notification_eq_ok_noOld (env : WinEnv) (message : String)
    (reg : WindowRegistry) (hg : get_webview_window reg "notification" = none)
    (hbf : env.buildFails = false) :
    show_notification env message reg =
      (Except.ok (),
        evalOnLabel (reg ++ [builtNotificationWindow]) "notification"
          (jsonEncodeString message),
        [NotifAction.buildNew, NotifAction.evalMessage]) := by
  have hbuilt : builtNotificationWindow.label = "notification" := rfl
  simp [show_notification, hg, buildWindowCall, hbf, hbuilt]

theorem show_notification_eq_buildFail_old (env : WinEnv) (message : String)
    (reg : WindowRegistry) (w₀ : Window)
    (hg : get_webview_window reg "notification" = some w₀)
    (hclose : env.closeFails = false) (hbf : env.buildFails = true) :
    show_notification env message reg =
      (Except.error "window build failed",
        reg.eraseP (fun w => w.label == "notification"),
        [NotifAction.closeOld, NotifAction.buildNew]) := by
  simp [show_notification, hg, closeWindow, hclose, buildWindowCall, hbf]

theorem show_notification_eq_ok_old (env : WinEnv) (message : String)
    (reg : WindowRegistry) (w₀ : Window)
    (hg : get_webview_window reg "notification" = some w₀)
    (hg0 : get_webview_window (reg.eraseP (fun w => w.label == "notification"))
      "notification" = none)
    (hclose : env.closeFails = false) (hbf : env.buildFails = false) :
    show_notification env message reg =
      (Except.ok (),
        evalOnLabel (reg.eraseP (fun w => w.label == "notification") ++
          [builtNotificationWindow]) "notification" (jsonEncodeString message),
        [NotifAction.closeOld, NotifAction.buildNew,
          NotifAction.evalMessage]) := by
  have hbuilt : builtNotificationWindow.label = "notification" := rfl
  simp [show_notification, hg, closeWindow, hclose, buildWindowCall, hbf,
    hbuilt, hg0]

/-- C2: For every call to `show_notification`, an already existing
notification window is closed first (its close result is ignored), so
that — assuming the best-effort close succeeds and the registry held at
most one notification window — afterwards at most one notification
window exists, and any notification window present carries the newest
message as JSON payload. -/
theorem show_notification_single_newest (env : WinEnv) (message : String)
    (reg : WindowRegistry) (hclose : env.closeFails = false)
    (hinv : labelCount reg "notification" ≤ 1) :
    labelCount (show_notification env message reg).2.1 "notification" ≤ 1 ∧
    (∀ w₀, get_webview_window reg "notification" = some w₀ →
      NotifAction.closeOld ∈ (show_notification env message reg).2.2) ∧
    (∀ w, get_webview_window (show_notification env message reg).2.1
        "notification" = some w →
      w.payload = some (jsonEncodeString message)) := by
  cases hg : get_webview_window reg "notification" with
  | none =>
    have h0 : labelCount reg "notification" = 0 :=
      (get_webview_window_eq_none_iff reg "notification").1 hg
    cases hbf : env.buildFails with
    | true =>
      rw [show_notification_eq_buildFail_noOld env message reg hg hbf]
      dsimp only
      refine ⟨by omega, ?_, ?_⟩
      · intro w₀ hw₀
        exact Option.noConfusion hw₀
      · intro w hw
        rw [hg] at hw
        exact Option.noConfusion hw
    | false =>
      rw [show_notification_eq_ok_noOld env message reg hg hbf]
      dsimp only
      refine ⟨?_, ?_, ?_⟩
      · rw [labelCount_evalOnLabel, labelCount_append, h0,
          labelCount_built_singleton]
      · intro w₀ hw₀
        exact Option.noConfusion hw₀
      · intro w hw
        rw [get_evalOnLabel, get_webview_window_append [builtNotificationWindow]
          hg, get_built_singleton, Option.map_some'] at hw
        rw [Option.some.injEq] at hw
        subst hw
        rfl
  | some w₀ =>
    have h1 : labelCount reg "notification" = 1 := by
      have := labelCount_pos_of_get hg
      omega
    have h0 : labelCount (reg.eraseP (fun w => w.label == "notification"))
        "notification" = 0 := by
      rw [labelCount_eraseP, h1]
    have hg0 : get_webview_window
        (reg.eraseP (fun w => w.label == "notification")) "notification" =
        none :=
      (get_webview_window_eq_none_iff _ _).2 h0
    cases hbf : env.buildFails with
    | true =>
      rw [show_notification_eq_buildFail_old env message reg w₀ hg hclose hbf]
      dsimp only
      refine ⟨by omega, fun _ _ => by simp, ?_⟩
      intro w hw
      rw [hg0] at hw
      exact Option.noConfusion hw
    | false =>
      rw [show_notification_eq_ok_old env message reg w₀ hg hg0 hclose hbf]
      dsimp only
      refine ⟨?_, fun _ _ => by simp, ?_⟩
      · rw [labelCount_evalOnLabel, labelCount_append, h0,
          labelCount_built_singleton]
      · intro w hw
        rw [get_evalOnLabel, get_webview_window_append [builtNotificationWindow]
          hg0, get_built_singleton, Option.map_some'] at hw
        rw [Option.some.injEq] at hw
        subst hw
        rfl

/-- Witness for C2 at a concrete call: empty registry, no injected
failures, message `"Hello"`. -/
theorem show_notification_single_newest_witness :
    labelCount (show_notification ⟨false, false, false⟩ "Hello" []).2.1
      "notification" ≤ 1 :=
  (show_notification_single_newest ⟨false, false, false⟩ "Hello" [] rfl
    (by decide)).1

/-- C6: The message payload is delivered into the notification window's
runtime context as a JSON-encoded string value only after window
construction completes; if construction fails, the error is returned,
no payload delivery is attempted, and (the close of the previous window
having succeeded) no notification window is left on screen. -/
theorem show_notification_payload_after_build (env : WinEnv) (message : String)
    (reg : WindowRegistry) (hclose : env.closeFails = false)
    (hinv : labelCount reg "notification" ≤ 1) :
    (NotifAction.evalMessage ∈ (show_notification env message reg).2.2 →
      (show_notification env message reg).1 = Except.ok () ∧
      ∃ pre, (show_notification env message reg).2.2 =
          pre ++ [NotifAction.buildNew, NotifAction.evalMessage] ∧
        (pre = [] ∨ pre = [NotifAction.closeOld])) ∧
    (env.buildFails = true →
      (show_notification env message reg).1 =
        Except.error "window build failed" ∧
      NotifAction.evalMessage ∉ (show_notification env message reg).2.2 ∧
      get_webview_window (show_notification env message reg).2.1
        "notification" = none) := by
  cases hg : get_webview_window reg "notification" with
  | none =>
    cases hbf : env.buildFails with
    | true =>
      rw [show_notification_eq_buildFail_noOld env message reg hg hbf]
      exact ⟨fun hmem => absurd hmem (by simp), fun _ => ⟨rfl, by simp, hg⟩⟩
    | false =>
      rw [show_notification_eq_ok_noOld env message reg hg hbf]
      exact ⟨fun _ => ⟨rfl, [], rfl, Or.inl rfl⟩, fun hbf' => Bool.noConfusion hbf'⟩
  | some w₀ =>
    have h1 : labelCount reg "notification" = 1 := by
      have := labelCount_pos_of_get hg
      omega
    have hg0 : get_webview_window
        (reg.eraseP (fun w => w.label == "notification")) "notification" =
        none := by
      refine (get_webview_window_eq_none_iff _ _).2 ?_
      rw [labelCount_eraseP, h1]
    cases hbf : env.buildFails with
    | true =>
      rw [show_notification_eq_buildFail_old env message reg w₀ hg hclose hbf]
      exact ⟨fun hmem => absurd hmem (by simp), fun _ => ⟨rfl, by simp, hg0⟩⟩
    | false =>
      rw [show_notification_eq_ok_old env message reg w₀ hg hg0 hclose hbf]
      exact ⟨fun _ => ⟨rfl, [NotifAction.closeOld], rfl, Or.inr rfl⟩,
        fun hbf' => Bool.noConfusion hbf'⟩

/-- Witness for C6 at a concrete failing build: empty registry, build
failure injected, message `"Hello"`. -/
theorem show_notification_payload_after_build_witness :
    (show_notification ⟨false, true, false⟩ "Hello" []).1 =
      Except.error "window build failed" ∧
    NotifAction.evalMessage ∉ (show_notification ⟨false, true, false⟩
      "Hello" []).2.2 ∧
    get_webview_window (show_notification ⟨false, true, false⟩ "Hello" []).2.1
      "notification" = none :=
  (show_notification_payload_after_build ⟨false, true, false⟩ "Hello" [] rfl
    (by decide)).2 rfl

/-- C8: `close_notification` closes the notification window if it exists
and is a no-op otherwise; its return type carries no error (close errors
are swallowed), and afterwards — the close having succeeded and the
registry holding at most one such window — zero notification windows
exist. -/
theorem close_notification_idempotent (env : WinEnv) (reg : WindowRegistry)
    (hclose : env.closeFails = false)
    (hinv : labelCount reg "notification" ≤ 1) :
    labelCount (close_notification env reg) "notification" = 0 ∧
    (get_webview_window reg "notification" = none →
      close_notification env reg = reg) := by
  cases hg : get_webview_window reg "notification" with
  | none =>
    have h0 : labelCount reg "notification" = 0 :=
      (get_webview_window_eq_none_iff reg "notification").1 hg
    simp [close_notification, hg, h0]
  | some w₀ =>
    have h1 : labelCount reg "notification" = 1 := by
      have := labelCount_pos_of_get hg
      omega
    simp only [close_notification, hg, closeWindow, hclose, Bool.false_eq_true,
      if_false]
    refine ⟨by rw [labelCount_eraseP, h1], fun h => ?_⟩
    exact Option.noConfusion h

/-- Witness for C8 at the empty registry with no injected failures. -/
theorem close_notification_idempotent_witness :
    labelCount (close_notification ⟨false, false, false⟩ []) "notification" = 0 :=
  (close_notification_idempotent ⟨false, false, false⟩ [] rfl (by decide)).1

theorem on_tray_hide_eq (env : WinEnv) (reg : WindowRegistry) (w : Window)
    (hmain : get_webview_window reg "main" = some w)
    (hv : isVisibleCall env w = Except.ok true) :
    on_tray_icon_event env leftUpRelease reg =
      (mapLabel reg "main" (fun x => { x with visible := false }),
        [MainWinAction.hideMain]) := by
  simp [on_tray_icon_event, leftUpRelease, hmain, hv]

theorem on_tray_show_eq (env : WinEnv) (reg : WindowRegistry) (w : Window)
    (hmain : get_webview_window reg "main" = some w)
    (hv : isVisibleCall env w ≠ Except.ok true) :
    on_tray_icon_event env leftUpRelease reg =
      (mapLabel reg "main" (fun x => { x with visible := true, focused := true }),
        [MainWinAction.showMain, MainWinAction.focusMain]) := by
  cases hv' : isVisibleCall env w with
  | ok b =>
    cases b
    · simp [on_tray_icon_event, leftUpRelease, hmain, hv']
    · exact absurd hv' hv
  | error e => simp [on_tray_icon_event, leftUpRelease, hmain, hv']

/-- C3: For every tray-icon left-button-release event over an existing
main window, the handler hides the main window when the visibility query
returns visible, and otherwise — including when the query fails — shows
it and transfers input focus to it; on a failed query it never hides. -/
theorem tray_click_visibility_failsafe (env : WinEnv) (reg : WindowRegistry)
    (w : Window) (hmain : get_webview_window reg "main" = some w) :
    (isVisibleCall env w = Except.ok true →
      (on_tray_icon_event env leftUpRelease reg).2 = [MainWinAction.hideMain] ∧
      ∀ w', get_webview_window (on_tray_icon_event env leftUpRelease reg).1
          "main" = some w' → w'.visible = false) ∧
    (isVisibleCall env w ≠ Except.ok true →
      (on_tray_icon_event env leftUpRelease reg).2 =
        [MainWinAction.showMain, MainWinAction.focusMain] ∧
      ∀ w', get_webview_window (on_tray_icon_event env leftUpRelease reg).1
          "main" = some w' → w'.visible = true ∧ w'.focused = true) ∧
    (env.visQueryFails = true →
      MainWinAction.hideMain ∉ (on_tray_icon_event env leftUpRelease reg).2) := by
  refine ⟨?_, ?_, ?_⟩
  · intro hv
    rw [on_tray_hide_eq env reg w hmain hv]
    refine ⟨rfl, ?_⟩
    intro w' hw'
    have hm : get_webview_window
        (mapLabel reg "main" (fun x => { x with visible := false })) "main" =
        some { w with visible := false } := by
      rw [get_webview_window_mapLabel reg "main"
        (fun x => { x with visible := false }) (fun x => rfl), hmain,
        Option.map_some']
    dsimp only at hw'
    rw [hm, Option.some.injEq] at hw'
    subst hw'
    rfl
  · intro hv
    rw [on_tray_show_eq env reg w hmain hv]
    refine ⟨rfl, ?_⟩
    intro w' hw'
    have hm : get_webview_window (mapLabel reg "main"
        (fun x => { x with visible := true, focused := true })) "main" =
        some { w with visible := true, focused := true } := by
      rw [get_webview_window_mapLabel reg "main"
        (fun x => { x with visible := true, focused := true }) (fun x => rfl),
        hmain, Option.map_some']
    dsimp only at hw'
    rw [hm, Option.some.injEq] at hw'
    subst hw'
    exact ⟨rfl, rfl⟩
  · intro hq
    have hv : isVisibleCall env w ≠ Except.ok true := by
      simp [isVisibleCall, hq]
    rw [on_tray_show_eq env reg w hmain hv]
    simp

/-- Witness for C3: one visible main window, no injected failures; the
click hides it. -/
theorem tray_click_visibility_failsafe_witness :
    (on_tray_icon_event ⟨false, false, false⟩ leftUpRelease
      [⟨"main", "", "", 0, 0, false, false, false, false, false, false,
        true, false, none⟩]).2 = [MainWinAction.hideMain] :=
  ((tray_click_visibility_failsafe ⟨false, false, false⟩
      [⟨"main", "", "", 0, 0, false, false, false, false, false, false,
        true, false, none⟩]
      ⟨"main", "", "", 0, 0, false, false, false, false, false, false,
        true, false, none⟩ (by decide)).1 rfl).1

/-- C10: For every tray-icon left-button-release event, if no window
with identifier `"main"` exists in the registry, the handler leaves the
registry unchanged, invokes no window operation, and raises no error
(its type has no error component). -/
theorem tray_click_no_main_noop (env : WinEnv) (reg : WindowRegistry)
    (hmain : get_webview_window reg "main" = none) :
    on_tray_icon_event env leftUpRelease reg = (reg, []) := by
  simp [on_tray_icon_event, leftUpRelease, hmain]

/-- Witness for C10 at the empty registry. -/
theorem tray_click_no_main_noop_witness :
    on_tray_icon_event ⟨false, false, false⟩ leftUpRelease [] = ([], []) :=
  tray_click_no_main_noop ⟨false, false, false⟩ [] rfl

/-- C5: For every menu event with identifier `toggle_autostart`, a
successful toggle sets the checkbox's checked state to the toggle's
returned boolean, and a failed toggle leaves the checkbox unchanged
(the whole state keeps its `checked` field). -/
theorem on_menu_event_toggle_checkbox (st : MenuState) :
    (∀ b os', toggle_auto_launch st.registrar st.os = (Except.ok b, os') →
      on_menu_event "toggle_autostart" st =
        { st with os := os', checked := b }) ∧
    (∀ e os', toggle_auto_launch st.registrar st.os = (Except.error e, os') →
      on_menu_event "toggle_autostart" st = { st with os := os' }) := by
  constructor <;> intro x os' h <;> simp [on_menu_event, h]

/-- Witness for C5: registrar present, no OS failures, autostart
disabled; the menu toggle succeeds and checks the box. -/
theorem on_menu_event_toggle_checkbox_witness :
    on_menu_event "toggle_autostart"
      ⟨some (), ⟨false, false, false, false⟩, false, none⟩ =
      ⟨some (), ⟨true, false, false, false⟩, true, none⟩ :=
  (on_menu_event_toggle_checkbox
      ⟨some (), ⟨false, false, false, false⟩, false, none⟩).1
    true ⟨true, false, false, false⟩ rfl

/-- `toggle_auto_launch` on a present registrar is exactly the
`is_enabled` read followed by the flip: the decomposition used by the
interleaving model. -/
theorem toggle_auto_launch_eq_flipFrom (os : AutoStartOS) :
    toggle_auto_launch (some ()) os =
      flipFrom (isEnabledUnwrapOrFalse os) os := rfl

theorem isEnabledUnwrapOrFalse_of_ok (os : AutoStartOS)
    (hq : os.queryFails = false) : isEnabledUnwrapOrFalse os = os.enabled := by
  simp [isEnabledUnwrapOrFalse, isEnabledCall, hq]

theorem flipFrom_spec (b : Bool) (os : AutoStartOS) :
    (∀ r, (flipFrom b os).1 = Except.ok r →
      r = !b ∧ (flipFrom b os).2 = { os with enabled := !b }) ∧
    (∀ e, (flipFrom b os).1 = Except.error e → (flipFrom b os).2 = os) := by
  cases b with
  | false =>
    cases he : os.enableFails <;> simp [flipFrom, enableCall, he]
  | true =>
    cases hd : os.disableFails <;> simp [flipFrom, disableCall, hd]

theorem flipFrom_queryFails (b : Bool) (os : AutoStartOS) :
    ((flipFrom b os).2).queryFails = os.queryFails := by
  cases b with
  | false => cases he : os.enableFails <;> simp [flipFrom, enableCall, he]
  | true => cases hd : os.disableFails <;> simp [flipFrom, disableCall, hd]

theorem doneOkBefore_some {p : ThreadPhase} {b : Bool}
    (h : doneOkBefore p = some b) :
    ∃ v, p = ThreadPhase.done b (Except.ok v) := by
  cases p with
  | start => exact Option.noConfusion h
  | locked b' => exact Option.noConfusion h
  | done b' r =>
    cases r with
    | ok v =>
      simp only [doneOkBefore, Option.some.injEq] at h
      subst h
      exact ⟨v, rfl⟩
    | error e => exact Option.noConfusion h

theorem threadInv_congr_other (os : AutoStartOS) (self o₁ o₂ : ThreadPhase)
    (h : threadInv os self o₁) (ho : doneOkBefore o₁ = doneOkBefore o₂) :
    threadInv os self o₂ := by
  cases self with
  | start => trivial
  | locked b => exact h
  | done b r =>
    cases r with
    | error e => trivial
    | ok v =>
      simp only [threadInv] at h ⊢
      rw [← ho]
      exact h

theorem bool_ne_of_eq_not {a b : Bool} (h : a = !b) : b ≠ a := by
  cases b <;> simp [h]

theorem concStep_preserves {s s₁ : ConcState} {a : ConcStep}
    (hinv : ConcInv s) (h : concStep s a = some s₁) : ConcInv s₁ := by
  obtain ⟨hq, hlock, h0, h1⟩ := hinv
  cases a with
  | acquire i =>
    cases i with
    | t0 =>
      cases hL : s.lock with
      | some j => cases hT : s.thr0 <;> simp [concStep, hL, hT] at h
      | none =>
        cases hT : s.thr0 with
        | locked b => simp [concStep, hL, hT] at h
        | done b r => simp [concStep, hL, hT] at h
        | start =>
          simp only [concStep, hL, hT, Option.some.injEq] at h
          subst h
          simp only [lockInv, hL] at hlock
          refine ⟨hq, ⟨⟨isEnabledUnwrapOrFalse s.os, rfl⟩, hlock.2⟩, ?_, ?_⟩
          · simp only [threadInv]
            exact isEnabledUnwrapOrFalse_of_ok s.os hq
          · refine threadInv_congr_other s.os s.thr1 s.thr0 _ h1 ?_
            rw [hT]
            rfl
    | t1 =>
      cases hL : s.lock with
      | some j => cases hT : s.thr1 <;> simp [concStep, hL, hT] at h
      | none =>
        cases hT : s.thr1 with
        | locked b => simp [concStep, hL, hT] at h
        | done b r => simp [concStep, hL, hT] at h
        | start =>
          simp only [concStep, hL, hT, Option.some.injEq] at h
          subst h
          simp only [lockInv, hL] at hlock
          refine ⟨hq, ⟨⟨isEnabledUnwrapOrFalse s.os, rfl⟩, hlock.1⟩, ?_, ?_⟩
          · refine threadInv_congr_other s.os s.thr0 s.thr1 _ h0 ?_
            rw [hT]
            rfl
          · simp only [threadInv]
            exact isEnabledUnwrapOrFalse_of_ok s.os hq
  | commit i =>
    cases i with
    | t0 =>
      cases hL : s.lock with
      | none => cases hT : s.thr0 <;> simp [concStep, hL, hT] at h
      | some j =>
        cases j with
        | t1 => cases hT : s.thr0 <;> simp [concStep, hL, hT] at h
        | t0 =>
          cases hT : s.thr0 with
          | start => simp [concStep, hL, hT] at h
          | done b r => simp [concStep, hL, hT] at h
          | locked b =>
            simp only [concStep, hL, hT, Option.some.injEq] at h
            subst h
            rw [hT] at h0
            simp only [threadInv] at h0
            simp only [lockInv, hL] at hlock
            have hnl := hlock.2
            refine ⟨(flipFrom_queryFails b s.os).trans hq,
              ⟨fun b' hc => ThreadPhase.noConfusion hc, hnl⟩, ?_, ?_⟩
            · cases hr : (flipFrom b s.os).1 with
              | error e => trivial
              | ok r =>
                obtain ⟨hrb, hos⟩ := (flipFrom_spec b s.os).1 r hr
                simp only [threadInv]
                refine ⟨hrb, ?_⟩
                cases hd : doneOkBefore s.thr1 with
                | none =>
                  show ((flipFrom b s.os).2).enabled = !b
                  rw [hos]
                | some b₂ =>
                  obtain ⟨v₂, ht1'⟩ := doneOkBefore_some hd
                  rw [ht1'] at h1
                  simp only [threadInv] at h1
                  rw [hT] at h1
                  simp only [doneOkBefore] at h1
                  exact bool_ne_of_eq_not (h0.trans h1.2)
            · cases ht1 : s.thr1 with
              | start => trivial
              | locked b' => exact absurd ht1 (hnl b')
              | done b₂ r₂ =>
                cases r₂ with
                | error e => trivial
                | ok v₂ =>
                  rw [ht1] at h1
                  simp only [threadInv] at h1
                  rw [hT] at h1
                  simp only [doneOkBefore] at h1
                  simp only [threadInv]
                  refine ⟨h1.1, ?_⟩
                  cases hr : (flipFrom b s.os).1 with
                  | error e =>
                    simp only [doneOkBefore]
                    show ((flipFrom b s.os).2).enabled = !b₂
                    rw [(flipFrom_spec b s.os).2 e hr]
                    exact h1.2
                  | ok r =>
                    simp only [doneOkBefore]
                    exact Ne.symm (bool_ne_of_eq_not (h0.trans h1.2))
    | t1 =>
      cases hL : s.lock with
      | none => cases hT : s.thr1 <;> simp [concStep, hL, hT] at h
      | some j =>
        cases j with
        | t0 => cases hT : s.thr1 <;> simp [concStep, hL, hT] at h
        | t1 =>
          cases hT : s.thr1 with
          | start => simp [concStep, hL, hT] at h
          | done b r => simp [concStep, hL, hT] at h
          | locked b =>
            simp only [concStep, hL, hT, Option.some.injEq] at h
            subst h
            rw [hT] at h1
            simp only [threadInv] at h1
            simp only [lockInv, hL] at hlock
            have hnl := hlock.2
            refine ⟨(flipFrom_queryFails b s.os).trans hq,
              ⟨hnl, fun b' hc => ThreadPhase.noConfusion hc⟩, ?_, ?_⟩
            · cases ht0 : s.thr0 with
              | start => trivial
              | locked b' => exact absurd ht0 (hnl b')
              | done b₂ r₂ =>
                cases r₂ with
                | error e => trivial
                | ok v₂ =>
                  rw [ht0] at h0
                  simp only [threadInv] at h0
                  rw [hT] at h0
                  simp only [doneOkBefore] at h0
                  simp only [threadInv]
                  refine ⟨h0.1, ?_⟩
                  cases hr : (flipFrom b s.os).1 with
                  | error e =>
                    simp only [doneOkBefore]
                    show ((flipFrom b s.os).2).enabled = !b₂
                    rw [(flipFrom_spec b s.os).2 e hr]
                    exact h0.2
                  | ok r =>
                    simp only [doneOkBefore]
                    exact Ne.symm (bool_ne_of_eq_not (h1.trans h0.2))
            · cases hr : (flipFrom b s.os).1 with
              | error e => trivial
              | ok r =>
                obtain ⟨hrb, hos⟩ := (flipFrom_spec b s.os).1 r hr
                simp only [threadInv]
                refine ⟨hrb, ?_⟩
                cases hd : doneOkBefore s.thr0 with
                | none =>
                  show ((flipFrom b s.os).2).enabled = !b
                  rw [hos]
                | some b₂ =>
                  obtain ⟨v₂, ht0'⟩ := doneOkBefore_some hd
                  rw [ht0'] at h0
                  simp only [threadInv] at h0
                  rw [hT] at h0
                  simp only [doneOkBefore] at h0
                  exact bool_ne_of_eq_not (h1.trans h0.2)

theorem concExec_inv {s s' : ConcState} {t : List ConcStep}
    (hinv : ConcInv s) (h : concExec s t = some s') : ConcInv s' := by
  induction t generalizing s with
  | nil =>
    simp only [concExec, Option.some.injEq] at h
    subst h
    exact hinv
  | cons a t ih =>
    simp only [concExec] at h
    cases hs : concStep s a with
    | none => rw [hs] at h; exact Option.noConfusion h
    | some s₁ => rw [hs] at h; exact ih (concStep_preserves hinv hs) h

theorem initConc_inv (os : AutoStartOS) (hq : os.queryFails = false) :
    ConcInv (initConc os) := by
  refine ⟨hq, ⟨?_, ?_⟩, trivial, trivial⟩ <;>
    intro b hc <;> exact ThreadPhase.noConfusion hc

/-- C9: Toggle is atomic with respect to concurrent `toggle_auto_launch`
invocations.  Both invocations are serialized through the single mutex
on the registrar handle (main.rs line 11; acquired at line 21 and held
to the end of the function), modelled by the `concStep` interleaving
system in which a thread's read and flip happen while it owns the lock.
For every schedule in which both invocations finish successfully (the
`is_enabled` query not failing), their observed before-states differ —
the second observes the state left by the first — and each returns the
negation of its observed before-state. -/
theorem toggle_mutual_exclusion (os : AutoStartOS) (t : List ConcStep)
    (s : ConcState) (hq : os.queryFails = false)
    (hexec : concExec (initConc os) t = some s) (b0 r0 b1 r1 : Bool)
    (h0 : s.thr0 = ThreadPhase.done b0 (Except.ok r0))
    (h1 : s.thr1 = ThreadPhase.done b1 (Except.ok r1)) :
    b0 ≠ b1 ∧ r0 = !b0 ∧ r1 = !b1 := by
  obtain ⟨-, -, ht0, ht1⟩ := concExec_inv (initConc_inv os hq) hexec
  rw [h0] at ht0
  rw [h1] at ht1
  simp only [threadInv] at ht0 ht1
  rw [h1] at ht0
  simp only [doneOkBefore] at ht0
  exact ⟨Ne.symm ht0.2, ht0.1, ht1.1⟩

/-- Witness for C9: the sequential-order schedule from a clean OS state;
thread 0 observes `false` and returns `true`, thread 1 observes `true`
and returns `false`. -/
theorem toggle_mutual_exclusion_witness :
    (false : Bool) ≠ true ∧ (true : Bool) = !false ∧ (false : Bool) = !true :=
  toggle_mutual_exclusion ⟨false, false, false, false⟩
    [ConcStep.acquire ThreadId.t0, ConcStep.commit ThreadId.t0,
      ConcStep.acquire ThreadId.t1, ConcStep.commit ThreadId.t1]
    ⟨⟨false, false, false, false⟩, none,
      ThreadPhase.done false (Except.ok true),
      ThreadPhase.done true (Except.ok false)⟩
    rfl rfl false true true false rfl rfl

end LuWidget
